import Mathlib

/-!
# Verification of `qproject/commandline.py`

A shallow embedding of the command-line orchestrator of the qproject
repository (`src/qproject/commandline.py`).  The module sequences the
lifecycle prepare → clone → configure → run → commit over a workspace.

The functions of the missing collaborator modules (`qproject.projects`,
`qproject.utils`) are modelled as external effectful operations: each
invocation appends an event to a trace, and an oracle environment `Env`
decides whether the operation succeeds or raises.  Python exceptions are
modelled with `Except`; the trace is kept even when an exception
propagates, so that "which side effects happened before the raise" is
observable.
-/

set_option autoImplicit false

namespace QProject

/-- The three sub-commands accepted by `parse_args` (commandline.py line 49). -/
inductive Cmd : Type
  | prepare
  | run
  | commit
deriving DecidableEq

/-- The parsed command-line arguments (commandline.py lines 44-83).
Optional string arguments default to `none` (Python `None`); list
arguments default to `[]`.  `umask` is the integer `--umask` value
(argparse default `0o077`, line 80). -/
structure Args : Type where
  command : Cmd
  target : String
  workflow : List String
  commit : List String
  data : List String
  params : List String
  user : Option String
  group : Option String
  jobid : Option String
  dropbox : Option String
  barcode : Option String
  daemon : Bool
  pidfile : Option String
  umask : Nat
  cleanup : Bool
deriving DecidableEq

/-- Python truthiness of an optional string: `None` and `""` are falsy. -/
def truthy : Option String → Bool
  | none => false
  | some s => s != ""

/-- Reads an optional string, with `""` for `None` (only ever applied where
the Python code has already established the value is a truthy string). -/
def optStr : Option String → String
  | none => ""
  | some s => s

/-- Read-only filesystem facts consulted by `validate_args`
(`os.path.exists`, `os.path.isdir`). -/
structure FS : Type where
  pathExists : String → Bool
  isdir : String → Bool

/-- Removes trailing `'/'` characters from a character list. -/
def stripTrailingSlashes (cs : List Char) : List Char :=
  ((cs.reverse).dropWhile (fun c => c = '/')).reverse

/-- `os.path.dirname` for POSIX paths: everything up to the final `'/'`,
with trailing slashes stripped unless the head consists only of slashes. -/
def dirname (p : String) : String :=
  let cs := p.toList
  let i := match (cs.reverse).findIdx? (fun c => c = '/') with
           | none => 0
           | some j => cs.length - j
  let head := cs.take i
  if head ≠ [] ∧ head.any (fun c => c ≠ '/') then String.mk (stripTrailingSlashes head)
  else String.mk head

/-- The string starts with `'/'`. -/
def headIsSlash (s : String) : Bool :=
  match s.toList with
  | [] => false
  | c :: _ => c = '/'

/-- The string ends with `'/'`. -/
def lastIsSlash (s : String) : Bool :=
  match s.toList.getLast? with
  | none => false
  | some c => c = '/'

/-- `os.path.join` for POSIX paths, two components. -/
def pjoin (a b : String) : String :=
  if headIsSlash b then b
  else if a = "" ∨ lastIsSlash a = true then a ++ b
  else a ++ "/" ++ b

/-- The final check of `validate_args` (commandline.py lines 99-101):
`run` and `commit` require `--dropbox`. -/
def validateCmdPart (args : Args) : Except String Unit :=
  if (args.command = Cmd.run ∨ args.command = Cmd.commit) ∧ truthy args.dropbox = false then
    Except.error "dropbox must be specified for command"
  else Except.ok ()

/-- The daemon checks of `validate_args` (commandline.py lines 92-98),
followed by the command check. -/
def validateDaemonPart (fs : FS) (args : Args) : Except String Unit :=
  if args.daemon = true ∧ truthy args.pidfile = false then
    Except.error "pidfile must be specified if daemon is"
  else if args.daemon = true ∧ fs.pathExists (optStr args.pidfile) = true then
    Except.error "Pidfile exists"
  else if args.daemon = true ∧ fs.isdir (dirname (optStr args.pidfile)) = false then
    Except.error "Invalid pidfile"
  else validateCmdPart args

/-- `validate_args` (commandline.py lines 86-101).  The Python function
performs a sequence of checks, raising `ValueError` at the first failed
one; it only reads `args` and the filesystem (`os.path.exists`,
`os.path.isdir`), so it is embedded as a pure function — its freedom from
side effects is by construction. -/
def validate_args (fs : FS) (args : Args) : Except String Unit :=
  if truthy args.dropbox = true ∧ truthy args.barcode = false then
    Except.error "barcode must be specified if dropbox is"
  else if truthy args.dropbox = true ∧ truthy args.user = false then
    Except.error "specify user to copy back data"
  else validateDaemonPart fs args

/-- The bad-argument conditions enumerated by claim C7, written from the
spec's words, to be compared with `validate_args` as embedded from the
source. -/
def badCombination (fs : FS) (args : Args) : Prop :=
  (truthy args.dropbox = true ∧ truthy args.barcode = false) ∨
  (truthy args.dropbox = true ∧ truthy args.user = false) ∨
  (args.daemon = true ∧ truthy args.pidfile = false) ∨
  (args.daemon = true ∧
    (fs.pathExists (optStr args.pidfile) = true ∨
     fs.isdir (dirname (optStr args.pidfile)) = false)) ∨
  ((args.command = Cmd.run ∨ args.command = Cmd.commit) ∧ truthy args.dropbox = false)

theorem validate_args_error_iff (fs : FS) (args : Args) :
    (∃ e, validate_args fs args = Except.error e) ↔ badCombination fs args := by
  unfold validate_args validateDaemonPart validateCmdPart badCombination
  split_ifs <;> simp_all

theorem validate_args_ok_iff (fs : FS) (args : Args) :
    validate_args fs args = Except.ok () ↔ ¬ badCombination fs args := by
  rw [← validate_args_error_iff]
  constructor
  · intro h
    rintro ⟨e, he⟩
    rw [h] at he
    exact Except.noConfusion he
  · intro h
    cases hv : validate_args fs args with
    | ok a => cases a; rfl
    | error e => exact absurd ⟨e, hv⟩ h

/-- Observable side effects of the orchestrator.  Each constructor records
one invocation of an external operation (from the missing
`qproject.projects` / `qproject.utils` modules, or `os`/`shutil`), with
the arguments that `commandline.py` passes to it.  Workflows in the
prepare/run loops are identified by their position in the loop. -/
inductive Ev : Type
  | prepare (target : String) (create_ok : Bool)
  | openFile (path : String)
  | parseParams (path : String)
  | wfCreate (i : Nat)
  | wfClone (i : Nat)
  | wfConfig (i : Nat)
  | wfRun (i : Nat)
  | wfWait (i : Nat)
  | logWfOk (i : Nat)
  | copyData
  | setUmask (m : Nat)
  | daemonize (pidfile : String) (m : Nat)
  | logRunOk
  | logRunFailed
  | wfCommit (name : String) (dest : String) (user : Option String) (m : Nat)
  | rmtree (path : String)
deriving DecidableEq

/-- Python exceptions raised by the modelled code. -/
inductive Err : Type
  | valueError (msg : String)
  | runtimeError (msg : String)
  | typeError (msg : String)
  | opError (msg : String)
deriving DecidableEq

instance exceptDecEq {ε α : Type} [DecidableEq ε] [DecidableEq α] :
    DecidableEq (Except ε α) :=
  fun x y =>
    match x, y with
    | Except.ok a, Except.ok b =>
      if h : a = b then Decidable.isTrue (by rw [h])
      else Decidable.isFalse (by intro hc; injection hc; contradiction)
    | Except.error a, Except.error b =>
      if h : a = b then Decidable.isTrue (by rw [h])
      else Decidable.isFalse (by intro hc; injection hc; contradiction)
    | Except.ok _, Except.error _ => Decidable.isFalse (by intro hc; exact Except.noConfusion hc)
    | Except.error _, Except.ok _ => Decidable.isFalse (by intro hc; exact Except.noConfusion hc)

/-- A traced, fallible computation: the list of external operations
performed (in order), together with either a result or the exception that
propagated.  The trace is retained when an exception propagates. -/
abbrev TR (α : Type) : Type := List Ev × Except Err α

/-- Sequencing of traced computations: on an exception the continuation is
not run (Python control flow), but the trace so far is kept. -/
def tbind {α β : Type} (x : TR α) (f : α → TR β) : TR β :=
  match x.2 with
  | Except.error e => (x.1, Except.error e)
  | Except.ok a => (x.1 ++ (f a).1, (f a).2)

/-- A pure value: no events, no exception. -/
def tpure {α : Type} (a : α) : TR α := ([], Except.ok a)

/-- Record a single event and succeed. -/
def temit (e : Ev) : TR Unit := ([e], Except.ok ())

/-- The oracle environment: decides the outcome of every external
operation the orchestrator invokes (clone over the network, child
processes, the state of the filesystem at each access, ...). -/
structure Env : Type where
  prepareOk : String → Bool → Bool
  openOk : String → Bool
  parseOk : String → Bool
  parseVal : String → String
  createOk : Nat → Bool
  cloneOk : Nat → Bool
  configOk : Nat → Bool
  runLaunchOk : Nat → Bool
  returncode : Nat → Int
  copyDataOk : Bool
  destExists : String → Bool
  listdir : String → List String
  commitWfOk : String → Bool
  rmtreeOk : Bool

/-- `projects.prepare(target, create_ok, ...)` (called at commandline.py
lines 105 and 171): invoked, then either returns the workspace or raises. -/
def doPrepare (env : Env) (target : String) (create_ok : Bool) : TR Unit :=
  ([Ev.prepare target create_ok],
   if env.prepareOk target create_ok then Except.ok ()
   else Except.error (Err.opError "prepare failed"))

/-- `open(params)` (commandline.py line 112): raises `OSError` when the
file cannot be opened. -/
def doOpen (env : Env) (path : String) : TR Unit :=
  ([Ev.openFile path],
   if env.openOk path then Except.ok ()
   else Except.error (Err.opError "open failed"))

/-- `workflow.create(...)` for the workflow at loop position `i`
(commandline.py lines 124 and 142). -/
def doCreate (env : Env) (i : Nat) : TR Unit :=
  ([Ev.wfCreate i],
   if env.createOk i then Except.ok ()
   else Except.error (Err.opError "create failed"))

/-- `workflow.clone()` for the workflow at loop position `i`
(commandline.py lines 125 and 143). -/
def doClone (env : Env) (i : Nat) : TR Unit :=
  ([Ev.wfClone i],
   if env.cloneOk i then Except.ok ()
   else Except.error (Err.opError "clone failed"))

/-- `workflow.write_config(user, group)` for the workflow at loop position
`i` (commandline.py lines 126 and 144). -/
def doConfig (env : Env) (i : Nat) : TR Unit :=
  ([Ev.wfConfig i],
   if env.configOk i then Except.ok ()
   else Except.error (Err.opError "write_config failed"))

/-- `workflow.run(user=...)` for the workflow at loop position `i`
(commandline.py line 145): launching the child process may raise. -/
def doRunWf (env : Env) (i : Nat) : TR Unit :=
  ([Ev.wfRun i],
   if env.runLaunchOk i then Except.ok ()
   else Except.error (Err.opError "run failed"))

/-- `popen.wait()` for the workflow at loop position `i` (commandline.py
line 146): blocks, then returns; does not raise. -/
def doWait (_env : Env) (i : Nat) : TR Unit :=
  ([Ev.wfWait i], Except.ok ())

/-- `projects.copy_data(workspace, data, user, group)` (commandline.py
lines 130 and 140). -/
def doCopyData (env : Env) : TR Unit :=
  ([Ev.copyData],
   if env.copyDataOk then Except.ok ()
   else Except.error (Err.opError "copy_data failed"))

/-- `workflow.commit(dropbox, user, umask)` for the workflow named `name`
(commandline.py line 189). -/
def doCommitWf (env : Env) (name dest : String) (user : Option String) (m : Nat) : TR Unit :=
  ([Ev.wfCommit name dest user m],
   if env.commitWfOk name then Except.ok ()
   else Except.error (Err.opError "commit failed"))

/-- `shutil.rmtree(workspace.base)` (commandline.py line 192). -/
def doRmtree (env : Env) (path : String) : TR Unit :=
  ([Ev.rmtree path],
   if env.rmtreeOk then Except.ok ()
   else Except.error (Err.opError "rmtree failed"))

/-- A `projects.Workflow` handle as constructed by `prepare_command`
(commandline.py lines 120-122): it records the keyword arguments of the
constructor call.  `params` is the deserialized parameter structure, or
`none` when no parameter file was given. -/
structure Workflow : Type where
  remote : Option String
  commit : Option String
  params : Option String
deriving DecidableEq

/-- `itertools.zip_longest(a, b, c)` with the default fill value `None`:
the result has the length of the longest input and pairs entries
positionally, padding missing entries with `none`. -/
def zipLongest3 (a b c : List String) :
    List (Option String × Option String × Option String) :=
  (List.range (max (max a.length b.length) c.length)).map
    (fun i => (a.get? i, b.get? i, c.get? i))

/-- Parsing of one parameter file (commandline.py lines 112-117):
`open(params)` followed by `json.load(f)`.  A `ValueError` from
`json.load` is logged and re-raised unchanged (`raise` with no argument),
so it propagates exactly as raised. -/
def parseParamsFile (env : Env) (path : String) : TR (Option String) :=
  tbind (doOpen env path) (fun _ =>
    ([Ev.parseParams path],
     if env.parseOk path then Except.ok (some (env.parseVal path))
     else Except.error (Err.valueError "Invalid parameter file")))

/-- One iteration of the `prepare_command` loop (commandline.py lines
109-127) for the workflow at position `i`: parse the parameter file when
one is given (falsy entries become `params = None`), construct the
`Workflow`, and when `clone` is set perform `create`, `clone`,
`write_config` in that order. -/
def prepStep (env : Env) (clone : Bool) (i : Nat)
    (tr : Option String × Option String × Option String) : TR Workflow :=
  tbind (if truthy tr.2.2 then parseParamsFile env (optStr tr.2.2) else tpure none)
    (fun ps =>
      if clone then
        tbind (doCreate env i) (fun _ =>
        tbind (doClone env i) (fun _ =>
        tbind (doConfig env i) (fun _ =>
        tpure { remote := tr.1, commit := tr.2.1, params := ps })))
      else tpure { remote := tr.1, commit := tr.2.1, params := ps })

/-- The `prepare_command` loop over the zipped workflow specs, collecting
the constructed workflows in order (commandline.py lines 108-127). -/
def prepLoop (env : Env) (clone : Bool) :
    Nat → List (Option String × Option String × Option String) → TR (List Workflow)
  | _, [] => tpure []
  | i, tr :: rest =>
    tbind (prepStep env clone i tr) (fun wf =>
    tbind (prepLoop env clone (i + 1) rest) (fun wfs =>
    tpure (wf :: wfs)))

/-- `prepare_command(args, clone, copy_data)` (commandline.py lines
104-131): prepare the workspace with `create_ok=True`, loop over
`zip_longest(args.workflow, args.commit, args.params)`, then copy the
input data when both `args.data` is non-empty and `copy_data` is set.
Returns the ordered list of constructed workflows. -/
def prepare_command (env : Env) (args : Args) (clone copy_data : Bool) :
    TR (List Workflow) :=
  tbind (doPrepare env args.target true) (fun _ =>
  tbind (prepLoop env clone 0 (zipLongest3 args.workflow args.commit args.params)) (fun wfs =>
  tbind (if args.data ≠ [] ∧ copy_data = true then doCopyData env else tpure ()) (fun _ =>
  tpure wfs)))

/-- The exception message of commandline.py lines 148-151 (the Python
message interpolates `workflow.name`, which lives in the missing
`projects` module and is elided here). -/
def runMsg : String := "Workflow return non-zero returncode. See workflow log for details"

/-- One iteration of the run loop (commandline.py lines 141-153) for the
workflow at position `i`: `create`, `clone`, `write_config`, `run`,
`wait`, then `if popen.returncode:` raise `RuntimeError`, else log
success. -/
def runStep (env : Env) (i : Nat) : TR Unit :=
  tbind (doCreate env i) (fun _ =>
  tbind (doClone env i) (fun _ =>
  tbind (doConfig env i) (fun _ =>
  tbind (doRunWf env i) (fun _ =>
  tbind (doWait env i) (fun _ =>
  if env.returncode i ≠ 0 then ([], Except.error (Err.runtimeError runMsg))
  else ([Ev.logWfOk i], Except.ok ()))))))

/-- The list `[s, s+1, ..., s+k-1]` of loop positions. -/
def idxFrom : Nat → Nat → List Nat
  | _, 0 => []
  | s, k + 1 => s :: idxFrom (s + 1) k

/-- The run loop over workflow positions (commandline.py line 141):
stops at the first iteration that raises. -/
def runLoop (env : Env) : List Nat → TR Unit
  | [] => tpure ()
  | i :: rest => tbind (runStep env i) (fun _ => runLoop env rest)

/-- The body of the `try:` block of the nested `run()` procedure
(commandline.py lines 138-153): copy the input data if any was given,
then run the loop over the `n` workflows in list order. -/
def runBody (env : Env) (args : Args) (n : Nat) : TR Unit :=
  tbind (if args.data ≠ [] then doCopyData env else tpure ()) (fun _ =>
  runLoop env (idxFrom 0 n))

/-- The log record emitted by the `except`/`else` clauses of `run()`
(commandline.py lines 154-157). -/
def runLogEv : Except Err Unit → List Ev
  | Except.ok _ => [Ev.logRunOk]
  | Except.error _ => [Ev.logRunFailed]

/-- The workspace's `src` subdirectory.  Modelled from the spec: the
`Workspace` class lives in the missing `qproject.projects` module; the
spec fixes the layout as `<target>/src/...` (spec section 6). -/
def wsSrc (target : String) : String := pjoin target "src"

/-- The dropbox destination derived by `commit_command` (commandline.py
lines 173-176): `os.path.join(dropbox, barcode)` when `args.barcode` is
truthy, else `os.path.join(dropbox, jobid)`.  `os.path.join` raises
`TypeError` when handed `None`. -/
def commitDest (args : Args) : Except Err String :=
  if truthy args.barcode then
    match args.dropbox with
    | none => Except.error (Err.typeError "join with None")
    | some d => Except.ok (pjoin d (optStr args.barcode))
  else
    match args.dropbox, args.jobid with
    | some d, some j => Except.ok (pjoin d j)
    | _, _ => Except.error (Err.typeError "join with None")

/-- The commit loop (commandline.py lines 188-189): for each discovered
workflow name, `workflow.commit(dropbox, args.user, umask=0o077)` — note
the literal `0o077`. -/
def commitLoop (env : Env) : List String → String → Option String → TR Unit
  | [], _, _ => tpure ()
  | n :: rest, dest, user =>
    tbind (doCommitWf env n dest user 0o077) (fun _ => commitLoop env rest dest user)

/-- `commit_command(args)` (commandline.py lines 168-195): re-open the
workspace with `create_ok=False`, derive the dropbox destination, raise
`ValueError` if it already exists, list the workflow directory names
under `workspace.src`, commit each, and if `--cleanup` was given delete
the workspace.  The trailing bare `except:` only logs and re-raises, so
exceptions propagate unchanged. -/
def commit_command (env : Env) (args : Args) : TR Unit :=
  tbind (doPrepare env args.target false) (fun _ =>
    match commitDest args with
    | Except.error e => ([], Except.error e)
    | Except.ok dropbox =>
      if env.destExists dropbox then
        ([], Except.error (Err.valueError "Dropbox directory exists"))
      else
        tbind (commitLoop env (env.listdir (wsSrc args.target)) dropbox args.user) (fun _ =>
          if args.cleanup then doRmtree env args.target else tpure ()))

/-- The nested `run()` procedure of `run_command` (commandline.py lines
137-159): the `try:` body runs the loop; `except Exception:` swallows any
exception after logging it; `else:` logs success; `finally:` always calls
`commit_command(args)`.  Hence the trace is the body's trace, a log
record, then the commit phase's trace, and the procedure's outcome is the
commit phase's outcome. -/
def runProc (env : Env) (args : Args) (n : Nat) : TR Unit :=
  ((runBody env args n).1 ++ runLogEv (runBody env args n).2 ++ (commit_command env args).1,
   (commit_command env args).2)

/-- Modelled from the spec: `utils.daemonize(f, pidfile, umask)` lives in
the missing `qproject.utils` module.  Per the spec (section 9) the
detach capability may be "the identity function (run inline) or an actual
detach" without affecting the core's guarantees, so it is modelled as
recording the detach request and running the procedure inline. -/
def daemonizeRun (f : TR Unit) (pidfile : String) (m : Nat) : TR Unit :=
  tbind (temit (Ev.daemonize pidfile m)) (fun _ => f)

/-- `os.umask(args.umask)` (commandline.py line 164). -/
def osUmask (m : Nat) : TR Unit := temit (Ev.setUmask m)

/-- `run_command(args)` (commandline.py lines 134-165):
`prepare_command(args, clone=False, copy_data=False)` first, then the
`run()` procedure, daemonized when `--daemon` was given, else inline
after `os.umask(args.umask)`. -/
def run_command (env : Env) (args : Args) : TR Unit :=
  tbind (prepare_command env args false false) (fun wfs =>
    if args.daemon then
      daemonizeRun (runProc env args wfs.length) (optStr args.pidfile) args.umask
    else
      tbind (osUmask args.umask) (fun _ => runProc env args wfs.length))

/-- The command dispatch of `main` (commandline.py lines 210-215). -/
def commandResult (env : Env) (args : Args) : TR Unit :=
  match args.command with
  | Cmd.prepare => tbind (prepare_command env args true true) (fun _ => tpure ())
  | Cmd.run => run_command env args
  | Cmd.commit => commit_command env args

/-- `main()` (commandline.py lines 198-222): validate the arguments,
dispatch on the command, and exit with code `0` when everything completed
without raising, `1` otherwise.  `except Exception:` plus the `finally:
sys.exit(retcode)` mean the entry point never propagates an exception —
it always terminates with an exit code, which the embedding reflects by
`main` being a total function returning the code and the trace. -/
def main (fs : FS) (env : Env) (args : Args) : Nat × List Ev :=
  match validate_args fs args with
  | Except.error _ => (1, [])
  | Except.ok _ =>
    match commandResult env args with
    | (t, Except.ok _) => (0, t)
    | (t, Except.error _) => (1, t)

/-- `true` when a traced computation completed without an exception. -/
def resOk {α : Type} (x : TR α) : Bool :=
  match x.2 with
  | Except.ok _ => true
  | Except.error _ => false

/-- Events that belong to the commit phase: the `create_ok=False`
workspace re-open, per-workflow result delivery, and workspace removal. -/
def isCommitPhaseEv : Ev → Bool
  | Ev.prepare _ create_ok => !create_ok
  | Ev.wfCommit _ _ _ _ => true
  | Ev.rmtree _ => true
  | _ => false

/-- Events that are a `workflow.commit` invocation. -/
def isWfCommitEv : Ev → Bool
  | Ev.wfCommit _ _ _ _ => true
  | _ => false

theorem tbind_error {α β : Type} (x : TR α) (f : α → TR β) (e : Err)
    (h : x.2 = Except.error e) : tbind x f = (x.1, Except.error e) := by
  unfold tbind; rw [h]

theorem tbind_ok {α β : Type} (x : TR α) (f : α → TR β) (a : α)
    (h : x.2 = Except.ok a) : tbind x f = (x.1 ++ (f a).1, (f a).2) := by
  unfold tbind; rw [h]

theorem mem_tbind {α β : Type} {x : TR α} {f : α → TR β} {e : Ev}
    (h : e ∈ (tbind x f).1) : e ∈ x.1 ∨ ∃ a, x.2 = Except.ok a ∧ e ∈ (f a).1 := by
  unfold tbind at h
  cases hx : x.2 with
  | error err => rw [hx] at h; exact Or.inl h
  | ok a =>
    rw [hx] at h
    rcases List.mem_append.mp h with h1 | h2
    · exact Or.inl h1
    · exact Or.inr ⟨a, rfl, h2⟩

theorem commitLoop_events (env : Env) (names : List String) (dest : String)
    (user : Option String) :
    ∀ e ∈ (commitLoop env names dest user).1, ∃ n, e = Ev.wfCommit n dest user 0o077 := by
  induction names with
  | nil => intro e he; simp [commitLoop, tpure] at he
  | cons n rest ih =>
    intro e he
    simp only [commitLoop] at he
    rcases mem_tbind he with h1 | ⟨_, _, h2⟩
    · simp [doCommitWf] at h1
      exact ⟨n, h1⟩
    · exact ih e h2

theorem commitLoop_all_ok (env : Env) (names : List String) (dest : String)
    (user : Option String) (h : ∀ n ∈ names, env.commitWfOk n = true) :
    commitLoop env names dest user =
      (names.map (fun n => Ev.wfCommit n dest user 0o077), Except.ok ()) := by
  induction names with
  | nil => rfl
  | cons n rest ih =>
    have hn : env.commitWfOk n = true := h n (List.mem_cons_self n rest)
    have hr := ih (fun m hm => h m (List.mem_cons_of_mem n hm))
    simp only [commitLoop]
    rw [tbind_ok _ _ () (by simp [doCommitWf, hn])]
    rw [hr]
    simp [doCommitWf]

theorem commit_command_shape (env : Env) (args : Args) :
    ∃ rest, (commit_command env args).1 = Ev.prepare args.target false :: rest ∧
      ∀ e ∈ rest, isWfCommitEv e = true ∨ ∃ p, e = Ev.rmtree p := by
  unfold commit_command
  cases hp : env.prepareOk args.target false with
  | false =>
    rw [tbind_error _ _ (Err.opError "prepare failed") (by simp [doPrepare, hp])]
    exact ⟨[], by simp [doPrepare], by simp⟩
  | true =>
    rw [tbind_ok _ _ () (by simp [doPrepare, hp])]
    cases hd : commitDest args with
    | error e => exact ⟨[], by simp [doPrepare], by simp⟩
    | ok dropbox =>
      dsimp only
      cases hex : env.destExists dropbox with
      | true =>
        rw [if_pos rfl]
        exact ⟨[], by simp [doPrepare], by simp⟩
      | false =>
        rw [if_neg (by simp)]
        refine ⟨(tbind (commitLoop env (env.listdir (wsSrc args.target)) dropbox args.user)
          (fun _ => if args.cleanup = true then doRmtree env args.target else tpure ())).1,
          by simp [doPrepare], ?_⟩
        intro e he
        rcases mem_tbind he with h1 | ⟨_, _, h2⟩
        · rcases commitLoop_events env _ dropbox args.user e h1 with ⟨n, rfl⟩
          exact Or.inl rfl
        · cases hc : args.cleanup with
          | true =>
            rw [if_pos hc] at h2
            simp [doRmtree] at h2
            exact Or.inr ⟨args.target, h2⟩
          | false =>
            rw [if_neg (by simp [hc])] at h2
            simp [tpure] at h2

theorem runStep_events (env : Env) (i : Nat) :
    ∀ e ∈ (runStep env i).1, isCommitPhaseEv e = false := by
  intro e he
  unfold runStep at he
  rcases mem_tbind he with h | ⟨_, _, he⟩
  · simp [doCreate] at h; rw [h]; rfl
  rcases mem_tbind he with h | ⟨_, _, he⟩
  · simp [doClone] at h; rw [h]; rfl
  rcases mem_tbind he with h | ⟨_, _, he⟩
  · simp [doConfig] at h; rw [h]; rfl
  rcases mem_tbind he with h | ⟨_, _, he⟩
  · simp [doRunWf] at h; rw [h]; rfl
  rcases mem_tbind he with h | ⟨_, _, he⟩
  · simp [doWait] at h; rw [h]; rfl
  by_cases hrc : env.returncode i ≠ 0
  · rw [if_pos hrc] at he; simp at he
  · rw [if_neg hrc] at he; simp at he; rw [he]; rfl

theorem runLoop_events (env : Env) (l : List Nat) :
    ∀ e ∈ (runLoop env l).1, isCommitPhaseEv e = false := by
  induction l with
  | nil => intro e he; simp [runLoop, tpure] at he
  | cons i rest ih =>
    intro e he
    simp only [runLoop] at he
    rcases mem_tbind he with h | ⟨_, _, h⟩
    · exact runStep_events env i e h
    · exact ih e h

theorem runBody_events (env : Env) (args : Args) (n : Nat) :
    ∀ e ∈ (runBody env args n).1, isCommitPhaseEv e = false := by
  intro e he
  unfold runBody at he
  rcases mem_tbind he with h | ⟨_, _, h⟩
  · by_cases hd : args.data ≠ []
    · rw [if_pos hd] at h; simp [doCopyData] at h; rw [h]; rfl
    · rw [if_neg hd] at h; simp [tpure] at h
  · exact runLoop_events env _ e h

theorem tbind_snd_error {α β : Type} (x : TR α) (f : α → TR β) (e : Err)
    (h : x.2 = Except.error e) : (tbind x f).2 = Except.error e := by
  rw [tbind_error x f e h]

theorem tbind_snd_ok {α β : Type} (x : TR α) (f : α → TR β) (a : α)
    (h : x.2 = Except.ok a) : (tbind x f).2 = (f a).2 := by
  rw [tbind_ok x f a h]

theorem tbind_fst_error {α β : Type} (x : TR α) (f : α → TR β) (e : Err)
    (h : x.2 = Except.error e) : (tbind x f).1 = x.1 := by
  rw [tbind_error x f e h]

theorem tbind_fst_ok {α β : Type} (x : TR α) (f : α → TR β) (a : α)
    (h : x.2 = Except.ok a) : (tbind x f).1 = x.1 ++ (f a).1 := by
  rw [tbind_ok x f a h]

/-- The events of one successful run-loop iteration, in source order
(commandline.py lines 142-153). -/
def okSeg (i : Nat) : List Ev :=
  [Ev.wfCreate i, Ev.wfClone i, Ev.wfConfig i, Ev.wfRun i, Ev.wfWait i, Ev.logWfOk i]

/-- The events of a run-loop iteration whose workflow exits with a
non-zero status: all five steps happen, then `RuntimeError` is raised. -/
def failSeg (i : Nat) : List Ev :=
  [Ev.wfCreate i, Ev.wfClone i, Ev.wfConfig i, Ev.wfRun i, Ev.wfWait i]

/-- The data-copy events of the `run()` body (commandline.py lines
139-140): one `copy_data` call when `args.data` is non-empty. -/
def copyEvs (args : Args) : List Ev :=
  if args.data = [] then [] else [Ev.copyData]

/-- All four external operations of one run-loop iteration succeed. -/
def opsOk (env : Env) (i : Nat) : Bool :=
  env.createOk i && env.cloneOk i && env.configOk i && env.runLaunchOk i

theorem runStep_ok (env : Env) (i : Nat) (hop : opsOk env i = true)
    (hrc : env.returncode i = 0) : runStep env i = (okSeg i, Except.ok ()) := by
  simp only [opsOk, Bool.and_eq_true] at hop
  obtain ⟨⟨⟨h1, h2⟩, h3⟩, h4⟩ := hop
  unfold runStep
  rw [tbind_ok _ _ () (by simp [doCreate, h1])]
  rw [tbind_ok _ _ () (by simp [doClone, h2])]
  rw [tbind_ok _ _ () (by simp [doConfig, h3])]
  rw [tbind_ok _ _ () (by simp [doRunWf, h4])]
  rw [tbind_ok _ _ () (by simp [doWait])]
  rw [if_neg (by simp [hrc])]
  simp [doCreate, doClone, doConfig, doRunWf, doWait, okSeg]

theorem runStep_fail (env : Env) (i : Nat) (hop : opsOk env i = true)
    (hrc : env.returncode i ≠ 0) :
    runStep env i = (failSeg i, Except.error (Err.runtimeError runMsg)) := by
  simp only [opsOk, Bool.and_eq_true] at hop
  obtain ⟨⟨⟨h1, h2⟩, h3⟩, h4⟩ := hop
  unfold runStep
  rw [tbind_ok _ _ () (by simp [doCreate, h1])]
  rw [tbind_ok _ _ () (by simp [doClone, h2])]
  rw [tbind_ok _ _ () (by simp [doConfig, h3])]
  rw [tbind_ok _ _ () (by simp [doRunWf, h4])]
  rw [tbind_ok _ _ () (by simp [doWait])]
  rw [if_pos hrc]
  simp [doCreate, doClone, doConfig, doRunWf, doWait, failSeg]

theorem runLoop_all_ok (env : Env) :
    ∀ (k s : Nat),
      (∀ j, s ≤ j → j < s + k → opsOk env j = true ∧ env.returncode j = 0) →
      runLoop env (idxFrom s k) =
        (List.flatten ((idxFrom s k).map okSeg), Except.ok ()) := by
  intro k
  induction k with
  | zero => intro s _; rfl
  | succ k ih =>
    intro s h
    have hs := h s (Nat.le_refl s) (by omega)
    simp only [idxFrom, runLoop]
    rw [tbind_ok _ _ () (by rw [runStep_ok env s hs.1 hs.2])]
    rw [ih (s + 1) (fun j hj1 hj2 => h j (by omega) (by omega))]
    rw [runStep_ok env s hs.1 hs.2]
    simp

theorem runLoop_abort (env : Env) :
    ∀ (i k s : Nat), i < k →
      (∀ j, s ≤ j → j < s + k → opsOk env j = true) →
      (∀ j, s ≤ j → j < s + i → env.returncode j = 0) →
      env.returncode (s + i) ≠ 0 →
      runLoop env (idxFrom s k) =
        (List.flatten ((idxFrom s i).map okSeg) ++ failSeg (s + i),
         Except.error (Err.runtimeError runMsg)) := by
  intro i
  induction i with
  | zero =>
    intro k s hik hops _ hfail
    obtain ⟨k', rfl⟩ : ∃ k', k = k' + 1 := ⟨k - 1, by omega⟩
    have hop : opsOk env s = true := hops s (Nat.le_refl s) (by omega)
    have hf : env.returncode s ≠ 0 := by simpa using hfail
    simp only [idxFrom, runLoop]
    rw [tbind_error _ _ (Err.runtimeError runMsg) (by rw [runStep_fail env s hop hf])]
    rw [runStep_fail env s hop hf]
    simp [idxFrom]
  | succ i ih =>
    intro k s hik hops hpre hfail
    obtain ⟨k', rfl⟩ : ∃ k', k = k' + 1 := ⟨k - 1, by omega⟩
    have hop : opsOk env s = true := hops s (Nat.le_refl s) (by omega)
    have h0 : env.returncode s = 0 := hpre s (Nat.le_refl s) (by omega)
    simp only [idxFrom, runLoop]
    rw [tbind_ok _ _ () (by rw [runStep_ok env s hop h0])]
    rw [ih k' (s + 1) (by omega)
      (fun j hj1 hj2 => hops j (by omega) (by omega))
      (fun j hj1 hj2 => hpre j (by omega) (by omega))
      (by rw [show s + 1 + i = s + (i + 1) by omega]; exact hfail)]
    rw [runStep_ok env s hop h0]
    rw [show s + (i + 1) = s + 1 + i by omega]
    simp [idxFrom]

theorem runBody_all_ok (env : Env) (args : Args) (n : Nat)
    (hcopy : args.data = [] ∨ env.copyDataOk = true)
    (h : ∀ j, j < n → opsOk env j = true ∧ env.returncode j = 0) :
    runBody env args n =
      (copyEvs args ++ List.flatten ((idxFrom 0 n).map okSeg), Except.ok ()) := by
  have hloop := runLoop_all_ok env n 0 (fun j _ hj => h j (by omega))
  unfold runBody copyEvs
  by_cases hd : args.data = []
  · rw [if_neg (by simp [hd]), if_pos hd]
    rw [tbind_ok _ _ () rfl]
    rw [hloop]
    simp [tpure]
  · have hcp : env.copyDataOk = true := by rcases hcopy with h' | h' <;> [exact absurd h' hd; exact h']
    rw [if_pos hd, if_neg hd]
    rw [tbind_ok _ _ () (by simp [doCopyData, hcp])]
    rw [hloop]
    simp [doCopyData]

theorem runBody_abort (env : Env) (args : Args) (n i : Nat) (hin : i < n)
    (hcopy : args.data = [] ∨ env.copyDataOk = true)
    (hops : ∀ j, j < n → opsOk env j = true)
    (hpre : ∀ j, j < i → env.returncode j = 0)
    (hfail : env.returncode i ≠ 0) :
    runBody env args n =
      (copyEvs args ++ (List.flatten ((idxFrom 0 i).map okSeg) ++ failSeg i),
       Except.error (Err.runtimeError runMsg)) := by
  have hloop := runLoop_abort env i n 0 hin
    (fun j _ hj => hops j (by omega)) (fun j _ hj => hpre j (by omega))
    (by simpa using hfail)
  rw [show (0 : Nat) + i = i by omega] at hloop
  unfold runBody copyEvs
  by_cases hd : args.data = []
  · rw [if_neg (by simp [hd]), if_pos hd]
    rw [tbind_ok _ _ () rfl]
    rw [hloop]
    simp [tpure]
  · have hcp : env.copyDataOk = true := by rcases hcopy with h' | h' <;> [exact absurd h' hd; exact h']
    rw [if_pos hd, if_neg hd]
    rw [tbind_ok _ _ () (by simp [doCopyData, hcp])]
    rw [hloop]
    simp [doCopyData]

/-- The workflow that `prepStep` constructs from one zipped spec triple
when parsing succeeds. -/
def wfOfTriple (env : Env) (tr : Option String × Option String × Option String) : Workflow :=
  { remote := tr.1, commit := tr.2.1,
    params := if truthy tr.2.2 then some (env.parseVal (optStr tr.2.2)) else none }

/-- The parameter-file entry paired with the workflow at position `i` by
`zip_longest` in `prepare_command` (commandline.py line 109). -/
def paramFileAt (args : Args) (i : Nat) : Option (Option String) :=
  ((zipLongest3 args.workflow args.commit args.params).get? i).map (fun t => t.2.2)

theorem parseParamsFile_ok (env : Env) (path : String)
    (ho : env.openOk path = true) (hp : env.parseOk path = true) :
    parseParamsFile env path =
      ([Ev.openFile path, Ev.parseParams path], Except.ok (some (env.parseVal path))) := by
  unfold parseParamsFile
  rw [tbind_ok _ _ () (by simp [doOpen, ho])]
  simp [doOpen, hp]

theorem prepStep_snd_ok (env : Env) (clone : Bool) (i : Nat)
    (tr : Option String × Option String × Option String)
    (hparse : ∀ pf : String, env.openOk pf = true ∧ env.parseOk pf = true)
    (hsteps : ∀ j : Nat, env.createOk j = true ∧ env.cloneOk j = true ∧ env.configOk j = true) :
    (prepStep env clone i tr).2 = Except.ok (wfOfTriple env tr) := by
  unfold prepStep wfOfTriple
  by_cases hp : truthy tr.2.2 = true
  · rw [if_pos hp, if_pos hp]
    rw [tbind_snd_ok _ _ (some (env.parseVal (optStr tr.2.2)))
      (by rw [parseParamsFile_ok env _ (hparse _).1 (hparse _).2])]
    cases hc : clone with
    | false => rfl
    | true =>
      rw [if_pos rfl]
      rw [tbind_snd_ok _ _ () (by simp [doCreate, (hsteps i).1])]
      rw [tbind_snd_ok _ _ () (by simp [doClone, (hsteps i).2.1])]
      rw [tbind_snd_ok _ _ () (by simp [doConfig, (hsteps i).2.2])]
      rfl
  · rw [if_neg hp, if_neg hp]
    rw [tbind_snd_ok _ _ none rfl]
    cases hc : clone with
    | false => rfl
    | true =>
      rw [if_pos rfl]
      rw [tbind_snd_ok _ _ () (by simp [doCreate, (hsteps i).1])]
      rw [tbind_snd_ok _ _ () (by simp [doClone, (hsteps i).2.1])]
      rw [tbind_snd_ok _ _ () (by simp [doConfig, (hsteps i).2.2])]
      rfl

theorem prepLoop_snd_ok (env : Env) (clone : Bool)
    (hparse : ∀ pf : String, env.openOk pf = true ∧ env.parseOk pf = true)
    (hsteps : ∀ j : Nat, env.createOk j = true ∧ env.cloneOk j = true ∧ env.configOk j = true) :
    ∀ (trs : List (Option String × Option String × Option String)) (k : Nat),
      (prepLoop env clone k trs).2 = Except.ok (trs.map (wfOfTriple env)) := by
  intro trs
  induction trs with
  | nil => intro k; rfl
  | cons tr rest ih =>
    intro k
    simp only [prepLoop]
    rw [tbind_snd_ok _ _ (wfOfTriple env tr) (prepStep_snd_ok env clone k tr hparse hsteps)]
    rw [tbind_snd_ok _ _ (rest.map (wfOfTriple env)) (ih (k + 1))]
    rfl

theorem prepare_command_wfs (env : Env) (args : Args) (clone cd : Bool)
    (hprep : env.prepareOk args.target true = true)
    (hparse : ∀ pf : String, env.openOk pf = true ∧ env.parseOk pf = true)
    (hsteps : ∀ j : Nat, env.createOk j = true ∧ env.cloneOk j = true ∧ env.configOk j = true)
    (hcopy : args.data = [] ∨ cd = false ∨ env.copyDataOk = true) :
    (prepare_command env args clone cd).2 =
      Except.ok ((zipLongest3 args.workflow args.commit args.params).map (wfOfTriple env)) := by
  unfold prepare_command
  rw [tbind_snd_ok _ _ () (by simp [doPrepare, hprep])]
  rw [tbind_snd_ok _ _ _ (prepLoop_snd_ok env clone hparse hsteps _ 0)]
  rw [tbind_snd_ok _ _ ()]
  · rfl
  · by_cases hcond : args.data ≠ [] ∧ cd = true
    · rcases hcopy with h' | h' | h'
      · exact absurd h' hcond.1
      · rw [hcond.2] at h'; exact Bool.noConfusion h'
      · rw [if_pos hcond]; simp [doCopyData, h']
    · rw [if_neg hcond]; rfl

/-- `prepStep` at loop position `k` invokes `workflow.clone` only for
position `k`. -/
theorem prepStep_clone_events (env : Env) (clone : Bool) (k : Nat)
    (tr : Option String × Option String × Option String) :
    ∀ e ∈ (prepStep env clone k tr).1, ∀ j, e = Ev.wfClone j → j = k := by
  intro e he j hej
  unfold prepStep at he
  rcases mem_tbind he with h | ⟨ps, _, he⟩
  · by_cases hp : truthy tr.2.2 = true
    · rw [if_pos hp] at h
      unfold parseParamsFile at h
      rcases mem_tbind h with h1 | ⟨_, _, h1⟩
      · simp [doOpen] at h1; rw [h1] at hej; exact Ev.noConfusion hej
      · simp at h1; rw [h1] at hej; exact Ev.noConfusion hej
    · rw [if_neg hp] at h; simp [tpure] at h
  · cases hc : clone with
    | false => rw [hc] at he; rw [if_neg (by simp)] at he; simp [tpure] at he
    | true =>
      rw [hc] at he; rw [if_pos rfl] at he
      rcases mem_tbind he with h | ⟨_, _, he⟩
      · simp [doCreate] at h; rw [h] at hej; exact Ev.noConfusion hej
      rcases mem_tbind he with h | ⟨_, _, he⟩
      · simp [doClone] at h
        rw [h] at hej
        injection hej with h'
        exact h'.symm
      rcases mem_tbind he with h | ⟨_, _, he⟩
      · simp [doConfig] at h; rw [h] at hej; exact Ev.noConfusion hej
      · simp [tpure] at he

/-- When the parameter file of the spec triple is present and malformed,
`prepStep` raises before reaching the clone step: no `wfClone` event at
all is produced by that iteration. -/
theorem prepStep_parse_fail (env : Env) (clone : Bool) (k : Nat)
    (tr : Option String × Option String × Option String) (pf : String)
    (hpf : tr.2.2 = some pf) (hne : pf ≠ "") (hbad : env.parseOk pf = false) :
    (∃ e, (prepStep env clone k tr).2 = Except.error e) ∧
      ∀ ev ∈ (prepStep env clone k tr).1, ∀ j, ev ≠ Ev.wfClone j := by
  have htr : truthy tr.2.2 = true := by rw [hpf]; simp [truthy, hne]
  have hop : optStr tr.2.2 = pf := by rw [hpf]; rfl
  unfold prepStep
  rw [if_pos htr, hop]
  by_cases ho : env.openOk pf = true
  · have hpp : parseParamsFile env pf =
        ([Ev.openFile pf, Ev.parseParams pf],
         Except.error (Err.valueError "Invalid parameter file")) := by
      unfold parseParamsFile
      rw [tbind_ok _ _ () (by simp [doOpen, ho])]
      simp [doOpen, hbad]
    rw [tbind_error _ _ (Err.valueError "Invalid parameter file") (by rw [hpp])]
    refine ⟨⟨_, rfl⟩, ?_⟩
    intro ev hev j
    rw [hpp] at hev
    simp at hev
    rcases hev with h | h <;> rw [h] <;> exact fun hc => Ev.noConfusion hc
  · have hpp : parseParamsFile env pf =
        ([Ev.openFile pf], Except.error (Err.opError "open failed")) := by
      unfold parseParamsFile
      rw [tbind_error _ _ (Err.opError "open failed") (by simp [doOpen, ho])]
      simp [doOpen]
    rw [tbind_error _ _ (Err.opError "open failed") (by rw [hpp])]
    refine ⟨⟨_, rfl⟩, ?_⟩
    intro ev hev j
    rw [hpp] at hev
    simp at hev
    rw [hev]
    exact fun hc => Ev.noConfusion hc

/-- A malformed parameter file at relative position `i` of the remaining
spec triples makes `prepare_command`'s loop raise, with no clone step
performed at or after that position. -/
theorem prepLoop_parse_fail (env : Env) :
    ∀ (trs : List (Option String × Option String × Option String)) (k i : Nat)
      (r c : Option String) (pf : String),
      trs.get? i = some (r, c, some pf) → pf ≠ "" → env.parseOk pf = false →
      (∃ e, (prepLoop env true k trs).2 = Except.error e) ∧
        ∀ j, k + i ≤ j → Ev.wfClone j ∉ (prepLoop env true k trs).1 := by
  intro trs
  induction trs with
  | nil => intro k i r c pf h; exact absurd h (by simp)
  | cons tr rest ih =>
    intro k i r c pf hget hne hbad
    cases i with
    | zero =>
      have htr : tr = (r, c, some pf) := by simpa using hget
      have hstep := prepStep_parse_fail env true k tr pf (by rw [htr]) hne hbad
      obtain ⟨⟨e, herr⟩, hmem⟩ := hstep
      simp only [prepLoop]
      rw [tbind_error _ _ e herr]
      refine ⟨⟨e, rfl⟩, ?_⟩
      intro j _ hj
      exact hmem _ hj j rfl
    | succ i' =>
      have hget' : rest.get? i' = some (r, c, some pf) := by simpa using hget
      cases hs : (prepStep env true k tr).2 with
      | error e =>
        simp only [prepLoop]
        rw [tbind_error _ _ e hs]
        refine ⟨⟨e, rfl⟩, ?_⟩
        intro j hj hjmem
        have := prepStep_clone_events env true k tr _ hjmem j rfl
        omega
      | ok wf =>
        obtain ⟨⟨e, herr⟩, hmem⟩ := ih (k + 1) i' r c pf hget' hne hbad
        simp only [prepLoop]
        rw [tbind_ok _ _ wf hs]
        constructor
        · refine ⟨e, ?_⟩
          rw [tbind_snd_error _ _ e herr]
        · intro j hj hjmem
          rw [tbind_fst_error _ _ e herr] at hjmem
          rcases List.mem_append.mp hjmem with h1 | h2
          · have := prepStep_clone_events env true k tr _ h1 j rfl
            omega
          · exact hmem j (by omega) h2

theorem zipLongest3_length (a b c : List String) :
    (zipLongest3 a b c).length = max (max a.length b.length) c.length := by
  simp [zipLongest3]

theorem zipLongest3_get? (a b c : List String) (i : Nat)
    (h : i < max (max a.length b.length) c.length) :
    (zipLongest3 a b c).get? i = some (a.get? i, b.get? i, c.get? i) := by
  unfold zipLongest3
  rw [List.get?_map, List.get?_range h]
  rfl

theorem main_eq_zero_iff (fs : FS) (env : Env) (args : Args) :
    (main fs env args).1 = 0 ↔
      (validate_args fs args = Except.ok () ∧ resOk (commandResult env args) = true) := by
  unfold main
  cases hv : validate_args fs args with
  | error e => simp [hv]
  | ok u =>
    cases u
    rcases hcr : commandResult env args with ⟨t, r⟩
    cases r with
    | ok a => simp [resOk]
    | error e => simp [resOk]

theorem run_command_resOk (env : Env) (args : Args) (hd : args.daemon = false) :
    resOk (run_command env args) =
      (resOk (prepare_command env args false false) && resOk (commit_command env args)) := by
  cases hp : (prepare_command env args false false).2 with
  | error e =>
    have h1 : (run_command env args).2 = Except.error e := by
      unfold run_command
      exact tbind_snd_error _ _ e hp
    simp [resOk, h1, hp]
  | ok wfs =>
    have h2 : (run_command env args).2 = (commit_command env args).2 := by
      unfold run_command
      rw [tbind_snd_ok _ _ wfs hp]
      rw [hd]
      rw [if_neg (by simp)]
      rw [tbind_snd_ok _ _ () rfl]
      rfl
    cases hcc : (commit_command env args).2 <;> simp [resOk, h2, hp, hcc]

/-- An oracle under which every external operation succeeds, every child
process exits 0, the dropbox destination does not yet exist, and the
workspace's `src` directory holds one entry `"repoA"`. -/
def envAllOk : Env :=
  { prepareOk := fun _ _ => true
    openOk := fun _ => true
    parseOk := fun _ => true
    parseVal := fun _ => "parsed"
    createOk := fun _ => true
    cloneOk := fun _ => true
    configOk := fun _ => true
    runLaunchOk := fun _ => true
    returncode := fun _ => 0
    copyDataOk := true
    destExists := fun _ => false
    listdir := fun _ => ["repoA"]
    commitWfOk := fun _ => true
    rmtreeOk := true }

/-- A filesystem on which no path exists and every directory check
succeeds. -/
def fsAllOk : FS :=
  { pathExists := fun _ => false
    isdir := fun _ => true }

/-- The scenario of spec section 8: `run` with one workflow `repoA` at
commit `c1`, dropbox `/drop`, barcode `B1`, user `u`, not daemonized. -/
def argsRun : Args :=
  { command := Cmd.run
    target := "/w"
    workflow := ["repoA"]
    commit := ["c1"]
    data := []
    params := []
    user := some "u"
    group := none
    jobid := none
    dropbox := some "/drop"
    barcode := some "B1"
    daemon := false
    pidfile := none
    umask := 63
    cleanup := false }

/-- Like `envAllOk`, but every child process exits with status 1. -/
def envC3 : Env := { envAllOk with returncode := fun _ => 1 }

/-- Like `envAllOk`, but the dropbox destination already exists. -/
def envDestEx : Env := { envAllOk with destExists := fun _ => true }

/-- A `commit` invocation that requested cleanup. -/
def argsC2 : Args := { argsRun with command := Cmd.commit, cleanup := true }

/-- Like `envAllOk`, but the parameter file `bad.json` is malformed. -/
def envC4 : Env := { envAllOk with parseOk := fun pf => pf != "bad.json" }

/-- A `prepare` invocation with two workflows; the second one's parameter
file is `bad.json`. -/
def argsC4 : Args :=
  { argsRun with command := Cmd.prepare, workflow := ["r0", "r1"], commit := [],
                 params := ["good.json", "bad.json"] }

/-- C1: in the run command's run procedure (the `try/except/else/finally`
block of commandline.py lines 137-159), the commit phase executes exactly
once, after the run loop and before the procedure returns, in all cases —
the loop completes, a workflow exits non-zero, or an exception is raised
mid-loop (all outcomes of the oracle `env`).  The procedure's trace is a
commit-free run-phase prefix followed by the commit phase's entire trace;
the commit phase's opening event (the `create_ok=False` workspace
re-open) occurs exactly once; and the procedure's outcome is the commit
phase's outcome. -/
theorem run_commit_exactly_once (env : Env) (args : Args) (n : Nat) :
    ∃ t, (runProc env args n).1 = t ++ (commit_command env args).1 ∧
      (∀ e ∈ t, isCommitPhaseEv e = false) ∧
      ((runProc env args n).1.count (Ev.prepare args.target false) = 1) ∧
      (runProc env args n).2 = (commit_command env args).2 := by
  obtain ⟨rest, hshape, hrest⟩ := commit_command_shape env args
  have hnc : ∀ e ∈ (runBody env args n).1 ++ runLogEv (runBody env args n).2,
      isCommitPhaseEv e = false := by
    intro e he
    rcases List.mem_append.mp he with h | h
    · exact runBody_events env args n e h
    · cases hb : (runBody env args n).2 with
      | ok a => rw [hb] at h; simp [runLogEv] at h; rw [h]; rfl
      | error e' => rw [hb] at h; simp [runLogEv] at h; rw [h]; rfl
  refine ⟨(runBody env args n).1 ++ runLogEv (runBody env args n).2, rfl, hnc, ?_, rfl⟩
  have hsplit : (runProc env args n).1 =
      ((runBody env args n).1 ++ runLogEv (runBody env args n).2) ++
        (commit_command env args).1 := by
    unfold runProc
    rw [List.append_assoc]
  rw [hsplit, List.count_append]
  have h0 : ((runBody env args n).1 ++ runLogEv (runBody env args n).2).count
      (Ev.prepare args.target false) = 0 := by
    rw [List.count_eq_zero]
    intro hmem
    have := hnc _ hmem
    simp [isCommitPhaseEv] at this
  have h1 : rest.count (Ev.prepare args.target false) = 0 := by
    rw [List.count_eq_zero]
    intro hmem
    rcases hrest _ hmem with h | ⟨p, hp⟩
    · simp [isWfCommitEv] at h
    · exact Ev.noConfusion hp
  rw [h0, hshape, List.count_cons_self, h1]

/-- C2: when the derived dropbox destination already exists,
`commit_command` raises, copies no workflow's files to the destination,
and does not delete the workspace even when cleanup was requested
(commandline.py lines 178-183). -/
theorem commit_no_overwrite (env : Env) (args : Args) (dest : String)
    (hdest : commitDest args = Except.ok dest)
    (hex : env.destExists dest = true) :
    (∃ e, (commit_command env args).2 = Except.error e) ∧
      (∀ nm d u m, Ev.wfCommit nm d u m ∉ (commit_command env args).1) ∧
      (∀ p, Ev.rmtree p ∉ (commit_command env args).1) := by
  cases hp : env.prepareOk args.target false with
  | false =>
    have heq : commit_command env args =
        ((doPrepare env args.target false).1, Except.error (Err.opError "prepare failed")) := by
      unfold commit_command
      exact tbind_error _ _ _ (by simp [doPrepare, hp])
    rw [heq]
    refine ⟨⟨_, rfl⟩, ?_, ?_⟩
    · intro nm d u m h; simp [doPrepare] at h
    · intro p h; simp [doPrepare] at h
  | true =>
    have heq : commit_command env args =
        ((doPrepare env args.target false).1 ++ [],
         Except.error (Err.valueError "Dropbox directory exists")) := by
      unfold commit_command
      rw [tbind_ok _ _ () (by simp [doPrepare, hp])]
      rw [hdest]
      dsimp only
      rw [if_pos hex]
    rw [heq]
    refine ⟨⟨_, rfl⟩, ?_, ?_⟩
    · intro nm d u m h; simp [doPrepare] at h
    · intro p h; simp [doPrepare] at h

theorem commit_no_overwrite_witness :
    commitDest argsC2 = Except.ok "/drop/B1" ∧
      envDestEx.destExists "/drop/B1" = true ∧ argsC2.cleanup = true ∧
      ((∃ e, (commit_command envDestEx argsC2).2 = Except.error e) ∧
        (∀ nm d u m, Ev.wfCommit nm d u m ∉ (commit_command envDestEx argsC2).1) ∧
        (∀ p, Ev.rmtree p ∉ (commit_command envDestEx argsC2).1)) :=
  ⟨by decide, rfl, rfl, commit_no_overwrite envDestEx argsC2 "/drop/B1" (by decide) rfl⟩

/-- C3, counterexample: with every external operation succeeding but the
single workflow's child process exiting with status 1, the run loop's
`RuntimeError` is swallowed by the `except Exception:` clause of `run()`
(commandline.py lines 154-155), the commit phase succeeds, and the
process exits with code 0 — not non-zero as claimed. -/
theorem run_exit_code_cex :
    envC3.returncode 0 = 1 ∧ argsRun.command = Cmd.run ∧
      Ev.wfRun 0 ∈ (main fsAllOk envC3 argsRun).2 ∧
      (main fsAllOk envC3 argsRun).1 = 0 := by decide

/-- C3, amended: the exit code is 0 exactly when argument validation and
the dispatched command completed without raising; for the (non-daemon)
run command the command completes without raising exactly when its
initial prepare part and its final commit phase do — a workflow's
non-zero exit status inside the run loop is caught and logged and does
not by itself affect the exit code.  `main` is a total function, so the
entry point never propagates an exception. -/
theorem main_exit_code_run (fs : FS) (env : Env) (args : Args)
    (hc : args.command = Cmd.run) (hd : args.daemon = false) :
    ((main fs env args).1 = 0 ↔
      (validate_args fs args = Except.ok () ∧ resOk (run_command env args) = true)) ∧
    resOk (run_command env args) =
      (resOk (prepare_command env args false false) && resOk (commit_command env args)) := by
  constructor
  · rw [main_eq_zero_iff fs env args]
    have hcr : commandResult env args = run_command env args := by
      unfold commandResult
      rw [hc]
    rw [hcr]
  · exact run_command_resOk env args hd

theorem main_exit_code_run_witness :
    argsRun.command = Cmd.run ∧ argsRun.daemon = false ∧
      (((main fsAllOk envC3 argsRun).1 = 0 ↔
        (validate_args fsAllOk argsRun = Except.ok () ∧
          resOk (run_command envC3 argsRun) = true)) ∧
      resOk (run_command envC3 argsRun) =
        (resOk (prepare_command envC3 argsRun false false) &&
          resOk (commit_command envC3 argsRun))) :=
  ⟨rfl, rfl, main_exit_code_run fsAllOk envC3 argsRun rfl rfl⟩

/-- C4, counterexample: in a prepare invocation with two workflows where
only the second one's parameter file is malformed, the first workflow's
clone step has already been performed when the parse error is raised —
the error is not surfaced before all cloning begins, because parsing is
interleaved with the per-workflow clone loop (commandline.py lines
109-127). -/
theorem prepare_clone_before_parse_cex :
    envC4.parseOk "bad.json" = false ∧
      Ev.wfClone 0 ∈ (prepare_command envC4 argsC4 true true).1 ∧
      (prepare_command envC4 argsC4 true true).2 =
        Except.error (Err.valueError "Invalid parameter file") := by decide

/-- C4, amended: a malformed parameter file is a fatal error that aborts
`prepare_command`, and it is surfaced before the clone step of the
workflow it belongs to and of every later workflow — but workflows
earlier in the list have already been processed (and cloned) when it is
raised. -/
theorem prepare_malformed_params (env : Env) (args : Args) (cd : Bool)
    (i : Nat) (pf : String)
    (hp : paramFileAt args i = some (some pf)) (hne : pf ≠ "")
    (hbad : env.parseOk pf = false) :
    (∃ e, (prepare_command env args true cd).2 = Except.error e) ∧
      ∀ j, i ≤ j → Ev.wfClone j ∉ (prepare_command env args true cd).1 := by
  obtain ⟨t, hget, ht⟩ : ∃ t, (zipLongest3 args.workflow args.commit args.params).get? i =
      some t ∧ t.2.2 = some pf := by
    unfold paramFileAt at hp
    cases hg : (zipLongest3 args.workflow args.commit args.params).get? i with
    | none => rw [hg] at hp; simp at hp
    | some t => rw [hg] at hp; simp at hp; exact ⟨t, rfl, hp⟩
  have hget' : (zipLongest3 args.workflow args.commit args.params).get? i =
      some (t.1, t.2.1, some pf) := by
    rw [hget, ← ht]
  obtain ⟨herr, hmem⟩ := prepLoop_parse_fail env _ 0 i t.1 t.2.1 pf hget' hne hbad
  obtain ⟨e, he⟩ := herr
  cases hpr : env.prepareOk args.target true with
  | false =>
    have hsnd : (prepare_command env args true cd).2 =
        Except.error (Err.opError "prepare failed") := by
      unfold prepare_command
      exact tbind_snd_error _ _ (Err.opError "prepare failed") (by simp [doPrepare, hpr])
    have hfst : (prepare_command env args true cd).1 = (doPrepare env args.target true).1 := by
      unfold prepare_command
      exact tbind_fst_error _ _ (Err.opError "prepare failed") (by simp [doPrepare, hpr])
    constructor
    · exact ⟨Err.opError "prepare failed", hsnd⟩
    · intro j _ hj
      rw [hfst] at hj
      simp [doPrepare] at hj
  | true =>
    have hsnd : (prepare_command env args true cd).2 = Except.error e := by
      unfold prepare_command
      rw [tbind_snd_ok _ _ () (by simp [doPrepare, hpr])]
      exact tbind_snd_error _ _ e he
    have hfst : (prepare_command env args true cd).1 =
        (doPrepare env args.target true).1 ++
          (prepLoop env true 0 (zipLongest3 args.workflow args.commit args.params)).1 := by
      unfold prepare_command
      rw [tbind_fst_ok _ _ () (by simp [doPrepare, hpr])]
      rw [tbind_fst_error _ _ e he]
    refine ⟨⟨e, hsnd⟩, ?_⟩
    intro j hij hj
    rw [hfst] at hj
    rcases List.mem_append.mp hj with h1 | h2
    · simp [doPrepare] at h1
    · exact hmem j (by omega) h2


theorem prepare_malformed_params_witness :
    paramFileAt argsC4 1 = some (some "bad.json") ∧ "bad.json" ≠ "" ∧
      envC4.parseOk "bad.json" = false ∧
      ((∃ e, (prepare_command envC4 argsC4 true true).2 = Except.error e) ∧
        ∀ j, 1 ≤ j → Ev.wfClone j ∉ (prepare_command envC4 argsC4 true true).1) :=
  ⟨by decide, by decide, by decide,
    prepare_malformed_params envC4 argsC4 true 1 "bad.json" (by decide) (by decide) (by decide)⟩

/-- Like `envAllOk`, but the workflow at loop position 1 exits with
status 2. -/
def envC5 : Env := { envAllOk with returncode := fun j => if j = 1 then 2 else 0 }

/-- C5: in the run procedure, input data is copied first, then for each
workflow in list order the steps create, clone, configure, run, wait
happen in exactly that order; when every workflow exits 0 the loop
completes (first conjunct), and when workflow `i` is the first to exit
non-zero the loop is aborted — the trace ends at workflow `i` with no
event for any later workflow — and the failure is recorded
(`logRunFailed`) before the commit phase runs (second conjunct). -/
theorem run_loop_order_and_abort (env : Env) (args : Args) (n : Nat)
    (hok : ∀ j, j < n → opsOk env j = true)
    (hcopy : args.data = [] ∨ env.copyDataOk = true) :
    ((∀ j, j < n → env.returncode j = 0) →
      (runProc env args n).1 =
        copyEvs args ++ List.flatten ((idxFrom 0 n).map okSeg) ++ [Ev.logRunOk] ++
          (commit_command env args).1) ∧
    (∀ i, i < n → (∀ j, j < i → env.returncode j = 0) → env.returncode i ≠ 0 →
      (runProc env args n).1 =
        copyEvs args ++ List.flatten ((idxFrom 0 i).map okSeg) ++ failSeg i ++
          [Ev.logRunFailed] ++ (commit_command env args).1) := by
  constructor
  · intro hrc
    have hb := runBody_all_ok env args n hcopy (fun j hj => ⟨hok j hj, hrc j hj⟩)
    have h1 : (runProc env args n).1 =
        (runBody env args n).1 ++ runLogEv (runBody env args n).2 ++
          (commit_command env args).1 := rfl
    rw [h1, hb]
    simp [runLogEv, List.append_assoc]
  · intro i hin hpre hf
    have hb := runBody_abort env args n i hin hcopy hok hpre hf
    have h1 : (runProc env args n).1 =
        (runBody env args n).1 ++ runLogEv (runBody env args n).2 ++
          (commit_command env args).1 := rfl
    rw [h1, hb]
    simp [runLogEv, List.append_assoc]

theorem run_loop_order_and_abort_witness :
    (∀ j, j < 2 → opsOk envC5 j = true) ∧
      (argsRun.data = [] ∨ envC5.copyDataOk = true) ∧
      (((∀ j, j < 2 → envC5.returncode j = 0) →
        (runProc envC5 argsRun 2).1 =
          copyEvs argsRun ++ List.flatten ((idxFrom 0 2).map okSeg) ++ [Ev.logRunOk] ++
            (commit_command envC5 argsRun).1) ∧
      (∀ i, i < 2 → (∀ j, j < i → envC5.returncode j = 0) → envC5.returncode i ≠ 0 →
        (runProc envC5 argsRun 2).1 =
          copyEvs argsRun ++ List.flatten ((idxFrom 0 i).map okSeg) ++ failSeg i ++
            [Ev.logRunFailed] ++ (commit_command envC5 argsRun).1)) :=
  ⟨by decide, Or.inl rfl,
    run_loop_order_and_abort envC5 argsRun 2 (by decide) (Or.inl rfl)⟩

/-- A `prepare` invocation with three remotes, one commit and one
parameter file: more remotes than parameter files. -/
def argsC6 : Args :=
  { argsRun with command := Cmd.prepare, workflow := ["r1", "r2", "r3"],
                 commit := ["c1"], params := ["p1"] }

/-- C6: workflow specs are paired positionally by `zip_longest`; unequal
list lengths are not an error — the constructed workflow list has the
length of the longest spec list, each workflow holds exactly the entries
at its index (`none` for a missing counterpart), and in particular the
trailing workflows beyond the parameter-file list are constructed with
`params = none`. -/
theorem zip_longest_padding (env : Env) (args : Args) (clone cd : Bool)
    (hprep : env.prepareOk args.target true = true)
    (hparse : ∀ pf : String, env.openOk pf = true ∧ env.parseOk pf = true)
    (hsteps : ∀ j : Nat, env.createOk j = true ∧ env.cloneOk j = true ∧ env.configOk j = true)
    (hcopy : args.data = [] ∨ cd = false ∨ env.copyDataOk = true) :
    ∃ wfs, (prepare_command env args clone cd).2 = Except.ok wfs ∧
      wfs.length = max (max args.workflow.length args.commit.length) args.params.length ∧
      ∀ i, i < wfs.length →
        wfs.get? i = some
          { remote := args.workflow.get? i
            commit := args.commit.get? i
            params := match args.params.get? i with
                      | none => none
                      | some pf => if pf = "" then none else some (env.parseVal pf) } := by
  refine ⟨(zipLongest3 args.workflow args.commit args.params).map (wfOfTriple env),
    prepare_command_wfs env args clone cd hprep hparse hsteps hcopy, ?_, ?_⟩
  · rw [List.length_map, zipLongest3_length]
  · intro i hi
    rw [List.length_map, zipLongest3_length] at hi
    rw [List.get?_map, zipLongest3_get? _ _ _ i hi]
    unfold wfOfTriple
    cases hc : args.params.get? i with
    | none => simp [truthy]
    | some pf =>
      by_cases hpf : pf = ""
      · simp [truthy, hpf]
      · simp [truthy, optStr, hpf]

theorem zip_longest_padding_witness :
    envAllOk.prepareOk argsC6.target true = true ∧
      (∀ pf : String, envAllOk.openOk pf = true ∧ envAllOk.parseOk pf = true) ∧
      (∀ j : Nat, envAllOk.createOk j = true ∧ envAllOk.cloneOk j = true ∧
        envAllOk.configOk j = true) ∧
      (argsC6.data = [] ∨ true = false ∨ envAllOk.copyDataOk = true) ∧
      (∃ wfs, (prepare_command envAllOk argsC6 true true).2 = Except.ok wfs ∧
        wfs.length = max (max argsC6.workflow.length argsC6.commit.length)
          argsC6.params.length ∧
        ∀ i, i < wfs.length →
          wfs.get? i = some
            { remote := argsC6.workflow.get? i
              commit := argsC6.commit.get? i
              params := match argsC6.params.get? i with
                        | none => none
                        | some pf => if pf = "" then none
                                     else some (envAllOk.parseVal pf) }) :=
  ⟨rfl, fun _ => ⟨rfl, rfl⟩, fun _ => ⟨rfl, rfl, rfl⟩, Or.inl rfl,
    zip_longest_padding envAllOk argsC6 true true rfl (fun _ => ⟨rfl, rfl⟩)
      (fun _ => ⟨rfl, rfl, rfl⟩) (Or.inl rfl)⟩

/-- C7: `validate_args` raises if and only if one of the claim's
missing-combination conditions holds (the `badCombination` disjunction:
dropbox without barcode, dropbox without user, daemon without pidfile,
daemon with an existing pidfile or an invalid pidfile parent directory,
or `run`/`commit` without dropbox); it is embedded as a pure function —
it performs no side effects by construction. -/
theorem validate_args_raises_iff (fs : FS) (args : Args) :
    (∃ e, validate_args fs args = Except.error e) ↔ badCombination fs args :=
  validate_args_error_iff fs args

/-- A `commit` invocation whose `--umask` is `0o022`, not the default. -/
def argsC8 : Args := { argsRun with command := Cmd.commit, umask := 18 }

/-- C8, counterexample: with `--umask 0o022`, the commit phase still
passes the literal `0o077` to `workflow.commit` (commandline.py line
189); the invocation's umask is not the one applied to the copied
files. -/
theorem commit_umask_cex :
    argsC8.umask = 0o022 ∧
      ((commit_command envAllOk argsC8).1.filter isWfCommitEv) =
        [Ev.wfCommit "repoA" "/drop/B1" (some "u") 0o077] ∧
      (0o022 : Nat) ≠ 0o077 := by decide

/-- C8, amended: every `workflow.commit` invocation performed by the
commit phase carries the fixed umask `0o077`, regardless of the `--umask`
argument (which is applied only to the run phase's working directory via
`os.umask`/`daemonize`). -/
theorem commit_umask_fixed (env : Env) (args : Args) (nm d : String)
    (u : Option String) (m : Nat)
    (h : Ev.wfCommit nm d u m ∈ (commit_command env args).1) : m = 0o077 := by
  unfold commit_command at h
  rcases mem_tbind h with h1 | ⟨_, _, h2⟩
  · simp [doPrepare] at h1
  · cases hd : commitDest args with
    | error e => rw [hd] at h2; simp at h2
    | ok dropbox =>
      rw [hd] at h2
      dsimp only at h2
      by_cases hex : env.destExists dropbox = true
      · rw [if_pos hex] at h2; simp at h2
      · rw [if_neg hex] at h2
        rcases mem_tbind h2 with h3 | ⟨_, _, h4⟩
        · rcases commitLoop_events env _ dropbox args.user _ h3 with ⟨n2, hn⟩
          injection hn
        · by_cases hc : args.cleanup = true
          · rw [if_pos hc] at h4; simp [doRmtree] at h4
          · rw [if_neg hc] at h4; simp [tpure] at h4

theorem commit_umask_fixed_witness :
    Ev.wfCommit "repoA" "/drop/B1" (some "u") 0o077 ∈ (commit_command envAllOk argsC8).1 ∧
      (0o077 : Nat) = 0o077 :=
  ⟨by decide,
    commit_umask_fixed envAllOk argsC8 "repoA" "/drop/B1" (some "u") 0o077 (by decide)⟩

/-- C9: for every argument set that passes validation with command `run`
or `commit`, the barcode is present and truthy, so the derived commit
destination is always `dropbox` joined with `barcode`; the fallback
branch joining `dropbox` with `jobid` is unreachable. -/
theorem commit_dest_always_barcode (fs : FS) (args : Args)
    (hv : validate_args fs args = Except.ok ())
    (hc : args.command = Cmd.run ∨ args.command = Cmd.commit) :
    ∃ d b, args.dropbox = some d ∧ args.barcode = some b ∧ b ≠ "" ∧
      truthy args.barcode = true ∧ commitDest args = Except.ok (pjoin d b) := by
  have hbad := (validate_args_ok_iff fs args).mp hv
  unfold badCombination at hbad
  have h5 : ¬((args.command = Cmd.run ∨ args.command = Cmd.commit) ∧
      truthy args.dropbox = false) :=
    fun h => hbad (Or.inr (Or.inr (Or.inr (Or.inr h))))
  have h1 : ¬(truthy args.dropbox = true ∧ truthy args.barcode = false) :=
    fun h => hbad (Or.inl h)
  have hdb : truthy args.dropbox = true := by
    cases h : truthy args.dropbox with
    | false => exact absurd ⟨hc, h⟩ h5
    | true => rfl
  have hbc : truthy args.barcode = true := by
    cases h : truthy args.barcode with
    | false => exact absurd ⟨hdb, h⟩ h1
    | true => rfl
  obtain ⟨d, hd⟩ : ∃ d, args.dropbox = some d := by
    cases hdrop : args.dropbox with
    | none => rw [hdrop] at hdb; simp [truthy] at hdb
    | some d => exact ⟨d, rfl⟩
  obtain ⟨b, hb, hbne⟩ : ∃ b, args.barcode = some b ∧ b ≠ "" := by
    cases hbar : args.barcode with
    | none => rw [hbar] at hbc; simp [truthy] at hbc
    | some b =>
      refine ⟨b, rfl, ?_⟩
      rw [hbar] at hbc
      simpa [truthy] using hbc
  refine ⟨d, b, hd, hb, hbne, hbc, ?_⟩
  unfold commitDest
  rw [if_pos hbc, hd, hb]
  rfl

theorem commit_dest_always_barcode_witness :
    validate_args fsAllOk argsC2 = Except.ok () ∧
      (argsC2.command = Cmd.run ∨ argsC2.command = Cmd.commit) ∧
      (∃ d b, argsC2.dropbox = some d ∧ argsC2.barcode = some b ∧ b ≠ "" ∧
        truthy argsC2.barcode = true ∧ commitDest argsC2 = Except.ok (pjoin d b)) :=
  ⟨by decide, Or.inr rfl,
    commit_dest_always_barcode fsAllOk argsC2 (by decide) (Or.inr rfl)⟩

/-- C10: the commit phase commits exactly one workflow per directory name
listed under the workspace's `src` directory at commit time (in listing
order, to the derived destination, with the fixed umask), independently
of the workflow objects constructed earlier in the invocation: the
listing oracle is unconstrained, so a directory never created is not
committed and a pre-existing directory outside the spec list is
committed. -/
theorem commit_uses_listdir (env : Env) (args : Args) (dest : String)
    (hprep : env.prepareOk args.target false = true)
    (hdest : commitDest args = Except.ok dest)
    (hex : env.destExists dest = false)
    (hok : ∀ nm ∈ env.listdir (wsSrc args.target), env.commitWfOk nm = true) :
    ((commit_command env args).1.filter isWfCommitEv) =
      (env.listdir (wsSrc args.target)).map
        (fun nm => Ev.wfCommit nm dest args.user 0o077) := by
  have hloop := commitLoop_all_ok env (env.listdir (wsSrc args.target)) dest args.user hok
  have hfst : (commit_command env args).1 =
      (doPrepare env args.target false).1 ++
        ((env.listdir (wsSrc args.target)).map
          (fun nm => Ev.wfCommit nm dest args.user 0o077) ++
          (if args.cleanup = true then doRmtree env args.target else tpure ()).1) := by
    unfold commit_command
    rw [tbind_fst_ok _ _ () (by simp [doPrepare, hprep])]
    rw [hdest]
    dsimp only
    rw [if_neg (by simp [hex])]
    rw [hloop]
    rw [tbind_fst_ok _ _ () rfl]
  rw [hfst]
  rw [List.filter_append, List.filter_append]
  have h1 : (doPrepare env args.target false).1.filter isWfCommitEv = [] := by
    simp [doPrepare, isWfCommitEv]
  have h2 : ((env.listdir (wsSrc args.target)).map
      (fun nm => Ev.wfCommit nm dest args.user 0o077)).filter isWfCommitEv =
      (env.listdir (wsSrc args.target)).map
        (fun nm => Ev.wfCommit nm dest args.user 0o077) := by
    rw [List.filter_eq_self]
    intro e he
    rcases List.mem_map.mp he with ⟨nm, _, rfl⟩
    rfl
  have h3 : ((if args.cleanup = true then doRmtree env args.target else tpure ()).1).filter
      isWfCommitEv = [] := by
    by_cases hc : args.cleanup = true
    · rw [if_pos hc]; simp [doRmtree, isWfCommitEv]
    · rw [if_neg hc]; rfl
  rw [h1, h2, h3]
  simp

theorem commit_uses_listdir_witness :
    envAllOk.prepareOk argsC2.target false = true ∧
      commitDest argsC2 = Except.ok "/drop/B1" ∧
      envAllOk.destExists "/drop/B1" = false ∧
      (∀ nm ∈ envAllOk.listdir (wsSrc argsC2.target), envAllOk.commitWfOk nm = true) ∧
      ((commit_command envAllOk argsC2).1.filter isWfCommitEv) =
        (envAllOk.listdir (wsSrc argsC2.target)).map
          (fun nm => Ev.wfCommit nm "/drop/B1" argsC2.user 0o077) :=
  ⟨rfl, by decide, rfl, by decide,
    commit_uses_listdir envAllOk argsC2 "/drop/B1" rfl (by decide) rfl (by decide)⟩

end QProject
